import Mathlib

/-!
Verification of the map-hierarchy consistency engine: a shallow embedding of
the geometry kernel (`_point_in_polygon`, `is_within_boundary`, `to_geojson`
ring closure), the layer-inheritance resolver (`LayerService.read` /
`_list_own_layers` / `_get_inherited_layers` / `create`), the layer and
annotation mutation guards (`LayerService.update` / `LayerService.delete`,
`AnnotationService.create` / `AnnotationService.update`) and the boundary
creation route (`create_boundary`), with theorems settling the frozen claims.

Coordinates are embedded as rational pairs (the source works with Python
floats on hand-entered coordinates; the claims under test are exact
comparisons and arithmetic identities, so ℚ is the faithful exact model).
Database tables are embedded as lists of records in insertion order,
with autoincrement ids and a monotone timestamp counter.
-/

deriving instance DecidableEq for Except

namespace Maps

/-- A latitude/longitude pair `[lat, lon]` as stored by the application. -/
abbrev Coord := ℚ × ℚ

/-! ## Geometry kernel

From `BoundaryService._point_in_polygon` (src/api/backend/boundary.py,
identical in src/services/boundary_service.py): ray casting over the edges
`(polygon[i], polygon[j])` where `j` starts at `n - 1` and then trails `i`.
-/

/-- The list of previous vertices `polygon[j]` paired with each `polygon[i]`:
`j = n - 1` for `i = 0`, then `j = i - 1`. -/
def prevVerts (polygon : List Coord) : List Coord :=
  match polygon.getLast? with
  | none => []
  | some t => t :: polygon.dropLast

/-- One iteration of the ray-casting loop: with `x, y = point` and the edge
from `polygon[j] = (xj, yj)` to `polygon[i] = (xi, yi)`, toggle `inside` when
`((yi > y) != (yj > y)) and (x < (xj - xi) * (y - yi) / (yj - yi) + xi)`. -/
def pipStep (x y : ℚ) (inside : Bool) (e : Coord × Coord) : Bool :=
  let xi := e.1.1
  let yi := e.1.2
  let xj := e.2.1
  let yj := e.2.2
  let intersect :=
    (decide (yi > y) != decide (yj > y)) &&
      decide (x < (xj - xi) * (y - yi) / (yj - yi) + xi)
  if intersect then !inside else inside

/-- `BoundaryService._point_in_polygon(point, polygon)`: fold the toggle over
every edge, starting from `inside = False`. -/
def pointInPolygon (point : Coord) (polygon : List Coord) : Bool :=
  (polygon.zip (prevVerts polygon)).foldl (fun inside e => pipStep point.1 point.2 inside e) false

/-- `BoundaryService.is_within_boundary(coordinates, parent_boundary)`: every
coordinate must pass the point-in-polygon test (the Python loop returns False
at the first failure, which is exactly `List.all`). -/
def isWithinBoundary (coordinates : List Coord) (parentBoundary : List Coord) : Bool :=
  coordinates.all (fun c => pointInPolygon (c.1, c.2) parentBoundary)

/-- Instrumented variant of `pipStep` for the division-safety claim: it
returns `none` exactly when the guarded division would have a zero divisor,
and otherwise mirrors `pipStep`. -/
def pipStepChecked (x y : ℚ) (inside : Bool) (e : Coord × Coord) : Option Bool :=
  let xi := e.1.1
  let yi := e.1.2
  let xj := e.2.1
  let yj := e.2.2
  if decide (yi > y) != decide (yj > y) then
    if yj - yi = 0 then none
    else some (if decide (x < (xj - xi) * (y - yi) / (yj - yi) + xi) then !inside else inside)
  else some inside

/-- `pointInPolygon` with every division checked for a zero divisor. -/
def pointInPolygonChecked (point : Coord) (polygon : List Coord) : Option Bool :=
  (polygon.zip (prevVerts polygon)).foldlM (fun inside e => pipStepChecked point.1 point.2 inside e) false

/-- The per-edge crossing rule as the spec's sentence for C8 reads it: the
first coordinate (the latitude, for `[lat, lon]` input) governs the
between-test, and the intercept in the second coordinate is compared against
the point's longitude. Written from the claim's words, to be compared with
the code's `pipStep`. -/
def latGovernedEdgeRule (x y : ℚ) (e : Coord × Coord) : Bool :=
  let xi := e.1.1
  let yi := e.1.2
  let xj := e.2.1
  let yj := e.2.2
  (decide (xi > x) != decide (xj > x)) &&
    decide (y < (yj - yi) * (x - xi) / (xj - xi) + yi)

/-- The between-test of one edge as the code computes it:
`(yi > y) != (yj > y)`. -/
def edgeGuard (y : ℚ) (e : Coord × Coord) : Bool :=
  decide (e.1.2 > y) != decide (e.2.2 > y)

/-- Whether one edge toggles the crossing flag: the between-test and the
intercept comparison. -/
def edgeCross (x y : ℚ) (e : Coord × Coord) : Bool :=
  edgeGuard y e && decide (x < (e.2.1 - e.1.1) * (y - e.1.2) / (e.2.2 - e.1.2) + e.1.1)

/-- Fold of exclusive-or over a list of booleans (crossing parity). -/
def bxor (l : List Bool) : Bool :=
  l.foldr Bool.xor false

/-- A point is outside the polygon's bounding box: strictly left of, right
of, below or above every vertex. -/
def outsideBBox (p : Coord) (polygon : List Coord) : Prop :=
  (∀ v ∈ polygon, p.1 < v.1) ∨ (∀ v ∈ polygon, v.1 < p.1) ∨
    (∀ v ∈ polygon, p.2 < v.2) ∨ (∀ v ∈ polygon, v.2 < p.2)

/-- The square boundary `[[0,0],[0,10],[10,10],[10,0]]` from the spec's
testable property. -/
def sqBoundary : List Coord := [(0, 0), (0, 10), (10, 10), (10, 0)]

/-! ## Ring closure for GeoJSON export

From `BoundaryModel.to_geojson` (src/backend/boundary.py, identical in
src/models/boundary.py): reorder each `[lat, lon]` to `[lon, lat]` and close
the ring when the last point differs from the first. The Python indexes
`geojson_coords[0]` and `geojson_coords[-1]`, so the operation is modelled on
its non-empty domain; the empty case is unreachable there.
-/

/-- Reorder one `[lat, lon]` pair to `[lon, lat]`. -/
def swapLL (p : Coord) : Coord := (p.2, p.1)

/-- `ToClosedLonLatRing`: the coordinate conversion of `to_geojson`. -/
def toClosedLonLatRing (coordinates : List Coord) : List Coord :=
  match coordinates.map swapLL with
  | [] => []
  | h :: t =>
    if (h :: t).getLast (List.cons_ne_nil h t) ≠ h then (h :: t) ++ [h] else h :: t

/-! ## Layer store model

From `LayerModel` and `LayerService` (src/backend/layer.py). A layer row as
stored in the `layers` table; `config` is the serialized key/value style map
(its contents are opaque to the claims, a key/value list is enough).
Timestamps are modelled by a monotone counter: the claims only compare
creation order, which SQLite's `CURRENT_TIMESTAMP` + insertion order give.
-/

structure Layer where
  id : Nat
  map_area_id : Nat
  parent_layer_id : Option Nat
  name : String
  layer_type : String
  visible : Bool
  z_index : Int
  is_editable : Bool
  config : List (String × String)
  created_at : Nat
  updated_at : Nat
deriving DecidableEq, Repr

/-- The layers table with its autoincrement id and the timestamp counter. -/
structure DB where
  layers : List Layer
  nextId : Nat
  nextTime : Nat
deriving DecidableEq, Repr

/-- The `map_areas` rows the resolver consults: `(id, parent_id)`. -/
abbrev Hier := List (Nat × Option Nat)

/-- Injected storage faults, to settle the error-propagation claim: areas
whose own-layer read raises, areas whose parent-row read raises, `(map_id,
parent_layer_id)` pairs whose inherited-copy lookup raises, and whether
`CreateLayer` raises. -/
structure Faults where
  ownRead : List Nat
  parentRead : List Nat
  lookupFail : List (Nat × Nat)
  createFail : Bool
deriving DecidableEq, Repr

/-- No storage faults: normal operation. -/
def noFaults : Faults := ⟨[], [], [], false⟩

/-- `SELECT parent_id FROM map_areas WHERE id = ?`: `none` when the row is
missing, `some parent_id` otherwise. -/
def lookupParentRow (h : Hier) (a : Nat) : Option (Option Nat) :=
  (h.find? (fun r => r.1 == a)).map (fun r => r.2)

/-- The Python line `parent_id_value = getattr(parent_row, 'parent_id',
None)`. `sqlite3.Row` supports indexing (`row['parent_id']`, `row[0]`) but
not attribute access, so `getattr` with a default always returns that
default: the result is `None` whatever the row holds. -/
def rowGetattrParentId (_pid : Nat) : Option Nat :=
  none

/-- `a.z_index ≤ b.z_index`: the key of the final `read` sort. -/
def leZ (a b : Layer) : Prop := a.z_index ≤ b.z_index

instance : DecidableRel leZ := fun a b => inferInstanceAs (Decidable (a.z_index ≤ b.z_index))

/-- `ORDER BY z_index, created_at` of `_list_own_layers`. -/
def leZC (a b : Layer) : Prop :=
  a.z_index < b.z_index ∨ (a.z_index = b.z_index ∧ a.created_at ≤ b.created_at)

instance : DecidableRel leZC := fun a b =>
  inferInstanceAs (Decidable (a.z_index < b.z_index ∨ (a.z_index = b.z_index ∧ a.created_at ≤ b.created_at)))

/-- Python's `list.sort(key=lambda layer: layer.z_index)` is a stable sort by
`z_index`; any stable sort by the same key returns the same list, so
insertion sort models it exactly. -/
def sortZ (l : List Layer) : List Layer := List.insertionSort leZ l

/-- The SQL `ORDER BY z_index, created_at` as a stable sort over the table's
insertion order. -/
def sortZC (l : List Layer) : List Layer := List.insertionSort leZC l

/-- The row filter of `_list_own_layers`: `map_area_id = ? AND
parent_layer_id IS NULL`. -/
def ownPred (a : Nat) (l : Layer) : Bool :=
  l.map_area_id == a && l.parent_layer_id == none

/-- `LayerService._list_own_layers(map_id)`: on a storage error the
exception is caught, logged and an empty list returned. -/
def listOwn (nf : Faults) (db : DB) (a : Nat) : List Layer :=
  if a ∈ nf.ownRead then [] else sortZC (db.layers.filter (ownPred a))

/-- The single-row lookup for an existing inherited copy:
`map_area_id = ? AND parent_layer_id = ?`, first match in table order. -/
def findInherited (db : DB) (a : Nat) (pid : Nat) : Option Layer :=
  db.layers.find? (fun l => l.map_area_id == a && l.parent_layer_id == some pid)

/-- `LayerService.create(layer)`: insert with a fresh autoincrement id and
the current timestamps, appended in table order. -/
def createLayer (db : DB) (l : Layer) : DB × Layer :=
  let nl := { l with id := db.nextId, created_at := db.nextTime, updated_at := db.nextTime }
  (⟨db.layers ++ [nl], db.nextId + 1, db.nextTime + 1⟩, nl)

/-- The for-loop of `_get_inherited_layers` over the parent's resolved
layers: a faulted lookup is caught and skipped (`continue`); a found copy is
reused; otherwise a copy is materialized via `create`, whose storage errors
re-raise and so propagate. -/
def inheritLoop (nf : Faults) (a : Nat) : List Layer → DB → Except String (DB × List Layer)
  | [], db => .ok (db, [])
  | p :: ps, db =>
    if (a, p.id) ∈ nf.lookupFail then inheritLoop nf a ps db
    else
      match findInherited db a p.id with
      | some ex =>
        match inheritLoop nf a ps db with
        | .error e => .error e
        | .ok (db2, rest) => .ok (db2, ex :: rest)
      | none =>
        if nf.createFail then .error "layer create failed"
        else
          match
            createLayer db
              { id := 0, map_area_id := a, parent_layer_id := some p.id, name := p.name,
                layer_type := p.layer_type, visible := p.visible, z_index := p.z_index,
                is_editable := false, config := p.config, created_at := 0, updated_at := 0 }
          with
          | (db1, nl) =>
            match inheritLoop nf a ps db1 with
            | .error e => .error e
            | .ok (db2, rest) => .ok (db2, nl :: rest)

/-- `LayerService.read(map_id=...)` together with `_get_inherited_layers`,
for a nonzero `map_id` (the Python `elif map_id:` branch). The recursion of
`_get_inherited_layers` through the parent is bounded by a fuel argument
standing for the acyclicity of the parent chain; exhausted fuel is an error,
which no theorem relies on. Inside `_get_inherited_layers`: a faulted or
missing parent row, a `NULL` or `0` parent id (both falsy in Python) each
yield no inherited layers; then `getattr(parent_row, 'parent_id', None)` is
always `None` (see `rowGetattrParentId`), and `if not parent_id_value:
return []` follows, so the recursion and the materialization loop after it
are dead code, kept here as the source has them. -/
def readStack (nf : Faults) (h : Hier) : Nat → DB → Nat → Except String (DB × List Layer)
  | 0, _, _ => .error "recursion fuel exhausted"
  | fuel + 1, db, a =>
    let own := listOwn nf db a
    let inh : Except String (DB × List Layer) :=
      if a ∈ nf.parentRead then .ok (db, [])
      else
        match lookupParentRow h a with
        | none => .ok (db, [])
        | some none => .ok (db, [])
        | some (some pid) =>
          if pid == 0 then .ok (db, [])
          else
            match rowGetattrParentId pid with
            | none => .ok (db, [])
            | some pid2 =>
              match readStack nf h fuel db pid2 with
              | .error e => .error e
              | .ok (db1, pl) => inheritLoop nf a pl db1
    match inh with
    | .error e => .error e
    | .ok (db2, inhL) => .ok (db2, sortZ (own ++ inhL))

/-! ## Layer mutation guard

From `LayerService.update` and `LayerService.delete` (src/backend/layer.py).
-/

/-- The update payload restricted to `allowed_fields = ['name', 'visible',
'z_index', 'config']`; `is_editable` is not among them. -/
structure LayerUpdates where
  name : Option String
  visible : Option Bool
  z_index : Option Int
  config : Option (List (String × String))
deriving DecidableEq, Repr

/-- Apply the allowed fields and always bump `updated_at`. -/
def applyLayerUpdates (u : LayerUpdates) (t : Nat) (l : Layer) : Layer :=
  { l with
    name := u.name.getD l.name
    visible := u.visible.getD l.visible
    z_index := u.z_index.getD l.z_index
    config := u.config.getD l.config
    updated_at := t }

/-- `LayerService.update(layer_id, updates)`: `None` when the layer is
missing, a `ValueError` when it is not editable (before any write), else the
row is updated and re-read. The store is returned alongside the outcome. -/
def updateLayer (db : DB) (lid : Nat) (u : LayerUpdates) : DB × Except String (Option Layer) :=
  match db.layers.find? (fun l => l.id == lid) with
  | none => (db, .ok none)
  | some l =>
    if !l.is_editable then
      (db, .error "Cannot update inherited layer. Inherited layers are read-only.")
    else
      let db1 : DB :=
        ⟨db.layers.map (fun x => if x.id == lid then applyLayerUpdates u db.nextTime x else x),
          db.nextId, db.nextTime + 1⟩
      (db1, .ok (db1.layers.find? (fun l => l.id == lid)))

/-- `LayerService.delete(layer_id)`: `False` when the layer is missing, a
`ValueError` when it is not editable (before any write), else delete. -/
def deleteLayer (db : DB) (lid : Nat) : DB × Except String Bool :=
  match db.layers.find? (fun l => l.id == lid) with
  | none => (db, .ok false)
  | some l =>
    if !l.is_editable then
      (db, .error "Cannot delete inherited layer. Inherited layers are read-only.")
    else
      (⟨db.layers.filter (fun x => !(x.id == lid)), db.nextId, db.nextTime⟩, .ok true)

/-! ## Annotation mutation guard

From `AnnotationService.create` and `AnnotationService.update`
(src/backend/annotation.py). Identifiers use the short form `Anno` (the
stored rows of the `annotations` table).
-/

structure Anno where
  id : Nat
  layer_id : Nat
  anno_type : String
  coordinates : List ℚ
  style : List (String × String)
  content : String
  created_at : Nat
  updated_at : Nat
deriving DecidableEq, Repr

/-- The `layers` and `annotations` tables seen by the annotation service. -/
structure AnnoDB where
  layers : List Layer
  annos : List Anno
  nextId : Nat
  nextTime : Nat
deriving DecidableEq, Repr

/-- `AnnotationService.create(annotation)`: the target layer must exist and
be editable; both failures raise inside the validation `try`, whose handler
wraps the message. Nothing is inserted on failure. -/
def createAnno (adb : AnnoDB) (a : Anno) : AnnoDB × Except String Anno :=
  match adb.layers.find? (fun l => l.id == a.layer_id) with
  | none =>
    (adb, .error ("Error validating layer: Layer with ID " ++ toString a.layer_id ++ " does not exist"))
  | some l =>
    if !l.is_editable then
      (adb, .error "Error validating layer: Cannot create annotations on read-only layers")
    else
      let na := { a with id := adb.nextId, created_at := adb.nextTime, updated_at := adb.nextTime }
      (⟨adb.layers, adb.annos ++ [na], adb.nextId + 1, adb.nextTime + 1⟩, .ok na)

/-- The update payload restricted to `allowed_fields = ['coordinates',
'style', 'content']`. -/
structure AnnoUpdates where
  coordinates : Option (List ℚ)
  style : Option (List (String × String))
  content : Option String
deriving DecidableEq, Repr

/-- `AnnotationService.update(annotation_id, updates)`: the row is updated in
place (`updated_at` bumped) and re-read; an id with no row updates nothing
and returns `None`. The source performs no lookup of the owning layer and no
editability check here. -/
def updateAnno (adb : AnnoDB) (aid : Nat) (u : AnnoUpdates) : AnnoDB × Option Anno :=
  let annos1 := adb.annos.map (fun a =>
    if a.id == aid then
      { a with
        coordinates := u.coordinates.getD a.coordinates
        style := u.style.getD a.style
        content := u.content.getD a.content
        updated_at := adb.nextTime }
    else a)
  (⟨adb.layers, annos1, adb.nextId, adb.nextTime + 1⟩, annos1.find? (fun a => a.id == aid))

/-! ## Boundary creation route

From `create_boundary` (src/routes/boundaries.py, identical logic in
src/api/routes/boundaries.py) with `MapService.read` and
`BoundaryService.read` / `create` (src/api/backend/map.py,
src/api/backend/boundary.py: the `backend` package the route imports from
re-exports these services; the copy under src/backend lacks them).
-/

/-- A `map_areas` row as the route reads it. -/
structure AreaRec where
  id : Nat
  parent_id : Option Nat
  area_type : String
deriving DecidableEq, Repr

/-- A `boundaries` row. -/
structure BRec where
  id : Nat
  map_area_id : Nat
  coordinates : List Coord
deriving DecidableEq, Repr

/-- The boundaries table with its autoincrement id. -/
structure BdyDB where
  rows : List BRec
  nextId : Nat
deriving DecidableEq, Repr

/-- `BoundaryService.read(map_id)` of src/api/backend/boundary.py: returns
the row when found; when no row exists it falls through to a bare `raise`
with no active exception, which in Python raises
`RuntimeError('No active exception to re-raise')` (its docstring promises
`None` instead). -/
def boundaryReadByArea (bdb : BdyDB) (maid : Nat) : Except String BRec :=
  match bdb.rows.find? (fun b => b.map_area_id == maid) with
  | some b => .ok b
  | none => .error "No active exception to re-raise"

/-- The `'{area_type} boundary must be completely within the {parent_type}
boundary'` rejection pieces. -/
def areaKindName (t : String) : String :=
  if t == "individual" then "Individual map" else "Suburb"

/-- The expected containing kind named by the rejection. -/
def parentKindName (t : String) : String :=
  if t == "individual" then "suburb" else "master map"

/-- `INSERT INTO boundaries`: append with the fresh id. -/
def createBdy (bdb : BdyDB) (maid : Nat) (coords : List Coord) : BdyDB × Except String BRec :=
  (⟨bdb.rows ++ [⟨bdb.nextId, maid, coords⟩], bdb.nextId + 1⟩, .ok ⟨bdb.nextId, maid, coords⟩)

/-- The body of the `create_boundary` route after request parsing: look up
the area (404 when missing); when it has a truthy parent id, read the
parent's boundary (an exception there is caught by the route's outer handler:
error out, nothing created) and validate containment, rejecting with the
kind-naming message; otherwise create. -/
def createBoundaryRoute (areas : List AreaRec) (bdb : BdyDB) (maid : Nat) (coords : List Coord) :
    BdyDB × Except String BRec :=
  match areas.find? (fun r => r.id == maid) with
  | none => (bdb, .error "Map area not found")
  | some ma =>
    match ma.parent_id with
    | none => createBdy bdb maid coords
    | some pid =>
      if pid == 0 then createBdy bdb maid coords
      else
        match boundaryReadByArea bdb pid with
        | .error e => (bdb, .error e)
        | .ok pb =>
          if isWithinBoundary coords pb.coordinates then createBdy bdb maid coords
          else
            (bdb, .error (areaKindName ma.area_type ++ " boundary must be completely within the "
              ++ parentKindName ma.area_type ++ " boundary"))

/-! ## Concrete stores used by the settled claims -/

/-- An own layer of the master area 1. -/
def baseLayer : Layer :=
  ⟨1, 1, none, "base", "custom", true, 0, true, [], 0, 0⟩

/-- Master area 1, child area 2. -/
def hier12 : Hier := [(1, none), (2, some 1)]

/-- Store for the inheritance claims: the parent owns one layer, the child
none. -/
def dbC1 : DB := ⟨[baseLayer], 2, 1⟩

/-- An own layer of the child area 2 at `z = 1`, created first. -/
def layA : Layer := ⟨2, 2, none, "alpha", "custom", true, 1, true, [], 10, 10⟩

/-- An own layer of the child area 2 at `z = 0`, created second. -/
def layB : Layer := ⟨3, 2, none, "beta", "custom", true, 0, true, [], 11, 11⟩

/-- Store for the stack-order claim: the parent owns one layer, the child
owns two. -/
def dbC4 : DB := ⟨[baseLayer, layA, layB], 4, 12⟩

/-- A fault on the own-layer read of area 2. -/
def faultsOwn2 : Faults := ⟨[2], [], [], false⟩

/-- A fault on the parent-row read of area 2. -/
def faultsParent2 : Faults := ⟨[], [2], [], false⟩

/-- A read-only (inherited) layer. -/
def roLayer : Layer :=
  ⟨1, 1, some 7, "inherited", "custom", true, 0, false, [], 0, 0⟩

/-- An annotation living on the read-only layer. -/
def annOld : Anno := ⟨1, 1, "marker", [1, 2], [], "old", 0, 0⟩

/-- Annotation store whose only layer is read-only. -/
def annDB6 : AnnoDB := ⟨[roLayer], [annOld], 2, 5⟩

/-- An update that changes only the content. -/
def annUpd6 : AnnoUpdates := ⟨none, none, some "new"⟩

/-- Areas for the boundary route: master 1 and its suburb 2. -/
def areasC2 : List AreaRec := [⟨1, none, "master"⟩, ⟨2, some 1, "suburb"⟩]

/-- No boundaries stored at all. -/
def bdbEmpty : BdyDB := ⟨[], 1⟩

/-- The master's boundary is the square; table then holds one row. -/
def bdbSquare : BdyDB := ⟨[⟨1, 1, sqBoundary⟩], 2⟩

/-- A candidate triangle for the suburb. -/
def triCoords : List Coord := [(1, 1), (2, 2), (1, 2)]

/-- A candidate nested in the square. -/
def goodCoords : List Coord := [(2, 2), (2, 8), (8, 8)]

/-- A candidate with one vertex outside the square. -/
def badCoords : List Coord := [(2, 2), (20, 20), (8, 8)]

/-! ## Resolver collapse

Every reachable branch of `_get_inherited_layers` returns the empty list:
the faulted or missing parent row, the `NULL`/`0` parent id, and — in the
one remaining case — the `getattr` default. So `read(map_id=...)` always
returns the own layers only and never touches the store.
-/

theorem readStack_eq (nf : Faults) (h : Hier) (fuel : Nat) (db : DB) (a : Nat) :
    readStack nf h (fuel + 1) db a = .ok (db, sortZ (listOwn nf db a)) := by
  by_cases hp : a ∈ nf.parentRead
  · simp [readStack, hp]
  · cases hl : lookupParentRow h a with
    | none => simp [readStack, hp, hl]
    | some o =>
      cases o with
      | none => simp [readStack, hp, hl]
      | some pid =>
        by_cases hz : pid = 0
        · simp [readStack, hp, hl, hz]
        · simp [readStack, hp, hl, hz, rowGetattrParentId]

/-! ## C1 -/

/-- C1: refuted on the code (code bug). The claim says resolving the layer
stack of an area with a parent materializes exactly one inherited,
non-editable copy per ancestor layer. On the concrete store where parent
area 1 owns `baseLayer` and child area 2 has a valid parent link, resolution
returns no inherited layer at all and leaves the store untouched: the
`getattr(parent_row, 'parent_id', None)` call in `_get_inherited_layers`
always yields the `None` default on a `sqlite3.Row`, so the materialization
loop is unreachable. -/
theorem c1_resolver_materializes_no_inherited_copy :
    readStack noFaults hier12 3 dbC1 2 = .ok (dbC1, []) ∧
    lookupParentRow hier12 2 = some (some 1) ∧
    dbC1.layers = [baseLayer] ∧ baseLayer.map_area_id = 1 ∧
    (∀ l ∈ dbC1.layers, l.parent_layer_id = none) := by
  refine ⟨by decide, by decide, by decide, by decide, by decide⟩

/-! ## C4 -/

/-- C4: refuted on the code (code bug). The claim says the resolved stack is
own layers plus inherited layers merged in z order. On the concrete store
where parent area 1 owns `baseLayer` and child area 2 owns `layA` (z = 1)
and `layB` (z = 0), the stack returned for area 2 is only the two own layers
(in ascending z order, ties among own layers broken by creation time by the
SQL `ORDER BY`); no inherited copy of the parent's layer appears, for the
reason recorded at `c1_resolver_materializes_no_inherited_copy`'s source:
the resolver's inherited list is always empty. -/
theorem c4_resolved_stack_omits_inherited :
    readStack noFaults hier12 3 dbC4 2 = .ok (dbC4, [layB, layA]) ∧
    layB.z_index = 0 ∧ layA.z_index = 1 ∧
    baseLayer.map_area_id = 1 ∧ lookupParentRow hier12 2 = some (some 1) ∧
    (∀ l ∈ [layB, layA], l.parent_layer_id = none) := by
  refine ⟨by decide, by decide, by decide, by decide, by decide, by decide⟩

/-! ## C5 -/

/-- C5 counterexample: the claim says storage errors during resolution
propagate to the caller and no degraded stack is ever returned. With a fault
on the own-layers read of area 2 (a store that does hold own layers for 2),
and likewise with a fault on the parent-row read, resolution returns a
normal `.ok` result with an empty, degraded stack: the exceptions are caught
and logged inside `_list_own_layers` and `_get_inherited_layers`. -/
theorem c5_counterexample_errors_swallowed :
    (2 ∈ faultsOwn2.ownRead ∧ dbC4.layers.filter (ownPred 2) ≠ [] ∧
      readStack faultsOwn2 hier12 3 dbC4 2 = .ok (dbC4, [])) ∧
    (2 ∈ faultsParent2.parentRead ∧
      readStack faultsParent2 hier12 3 dbC1 2 = .ok (dbC1, [])) := by
  refine ⟨⟨by decide, by decide, by decide⟩, by decide, by decide⟩

/-- C5 amended: storage read errors during resolution are caught and logged
rather than propagated — a faulted own-layers read yields an empty own list
and a faulted parent-row read yields no inherited layers — so resolution at
any nonzero fuel always returns a normal (possibly empty or degraded) stack,
never an error, and never modifies the store. -/
theorem c5_amended_errors_swallowed :
    ∀ (nf : Faults) (h : Hier) (fuel : Nat) (db : DB) (a : Nat),
      readStack nf h (fuel + 1) db a = .ok (db, sortZ (listOwn nf db a)) ∧
      (a ∈ nf.ownRead → readStack nf h (fuel + 1) db a = .ok (db, [])) := by
  intro nf h fuel db a
  refine ⟨readStack_eq nf h fuel db a, fun hmem => ?_⟩
  rw [readStack_eq nf h fuel db a, listOwn, if_pos hmem]
  rfl

/-! ## C3: the layer mutation guard -/

theorem updateLayer_error_iff (db : DB) (lid : Nat) (u : LayerUpdates) :
    (∃ e, (updateLayer db lid u).2 = .error e) ↔
      ∃ l, db.layers.find? (fun x => x.id == lid) = some l ∧ l.is_editable = false := by
  cases hf : db.layers.find? (fun l => l.id == lid) with
  | none => simp [updateLayer, hf]
  | some l =>
    by_cases he : l.is_editable
    · simp [updateLayer, hf, he]
    · simp [updateLayer, hf, he]

theorem deleteLayer_error_iff (db : DB) (lid : Nat) :
    (∃ e, (deleteLayer db lid).2 = .error e) ↔
      ∃ l, db.layers.find? (fun x => x.id == lid) = some l ∧ l.is_editable = false := by
  cases hf : db.layers.find? (fun l => l.id == lid) with
  | none => simp [deleteLayer, hf]
  | some l =>
    by_cases he : l.is_editable
    · simp [deleteLayer, hf, he]
    · simp [deleteLayer, hf, he]

theorem updateLayer_missing (db : DB) (lid : Nat) (u : LayerUpdates)
    (hf : db.layers.find? (fun x => x.id == lid) = none) :
    (updateLayer db lid u).2 = .ok none ∧ (updateLayer db lid u).1 = db := by
  simp [updateLayer, hf]

theorem deleteLayer_missing (db : DB) (lid : Nat)
    (hf : db.layers.find? (fun x => x.id == lid) = none) :
    (deleteLayer db lid).2 = .ok false ∧ (deleteLayer db lid).1 = db := by
  simp [deleteLayer, hf]

theorem updateLayer_error_frame (db : DB) (lid : Nat) (u : LayerUpdates)
    (he : ∃ e, (updateLayer db lid u).2 = .error e) :
    (updateLayer db lid u).1 = db := by
  cases hf : db.layers.find? (fun l => l.id == lid) with
  | none => simp [updateLayer, hf]
  | some l =>
    by_cases hed : l.is_editable
    · rcases he with ⟨e, he⟩
      simp [updateLayer, hf, hed] at he
    · simp [updateLayer, hf, hed]

theorem deleteLayer_error_frame (db : DB) (lid : Nat)
    (he : ∃ e, (deleteLayer db lid).2 = .error e) :
    (deleteLayer db lid).1 = db := by
  cases hf : db.layers.find? (fun l => l.id == lid) with
  | none => simp [deleteLayer, hf]
  | some l =>
    by_cases hed : l.is_editable
    · rcases he with ⟨e, he⟩
      simp [deleteLayer, hf, hed] at he
    · simp [deleteLayer, hf, hed]

theorem updateLayer_preserves_editable (db : DB) (lid : Nat) (u : LayerUpdates) :
    (updateLayer db lid u).1.layers.map (fun l => (l.id, l.is_editable)) =
      db.layers.map (fun l => (l.id, l.is_editable)) := by
  cases hf : db.layers.find? (fun l => l.id == lid) with
  | none => simp [updateLayer, hf]
  | some l =>
    by_cases he : l.is_editable
    · simp only [updateLayer, hf, he, Bool.not_true, Bool.false_eq_true, if_false, List.map_map]
      refine List.map_congr_left fun x _ => ?_
      by_cases hx : x.id = lid <;> simp [applyLayerUpdates, hx]
    · simp [updateLayer, hf, he]

/-- C3: updating or deleting a layer is rejected with an error exactly when
the layer exists and is not editable; a missing layer yields `None` (update)
or `False` (delete) without error and without a write; a rejection leaves
the store untouched; and an update never changes any layer's `is_editable`
flag (`is_editable` is not among the updatable fields). -/
theorem c3_layer_mutation_guard :
    ∀ (db : DB) (lid : Nat) (u : LayerUpdates),
      ((∃ e, (updateLayer db lid u).2 = .error e) ↔
        ∃ l, db.layers.find? (fun x => x.id == lid) = some l ∧ l.is_editable = false) ∧
      ((∃ e, (deleteLayer db lid).2 = .error e) ↔
        ∃ l, db.layers.find? (fun x => x.id == lid) = some l ∧ l.is_editable = false) ∧
      (db.layers.find? (fun x => x.id == lid) = none →
        (updateLayer db lid u).2 = .ok none ∧ (updateLayer db lid u).1 = db ∧
          (deleteLayer db lid).2 = .ok false ∧ (deleteLayer db lid).1 = db) ∧
      ((∃ e, (updateLayer db lid u).2 = .error e) → (updateLayer db lid u).1 = db) ∧
      ((∃ e, (deleteLayer db lid).2 = .error e) → (deleteLayer db lid).1 = db) ∧
      (updateLayer db lid u).1.layers.map (fun l => (l.id, l.is_editable)) =
        db.layers.map (fun l => (l.id, l.is_editable)) := by
  intro db lid u
  refine ⟨updateLayer_error_iff db lid u, deleteLayer_error_iff db lid, fun hf => ?_,
    updateLayer_error_frame db lid u, deleteLayer_error_frame db lid,
    updateLayer_preserves_editable db lid u⟩
  obtain ⟨h1, h2⟩ := updateLayer_missing db lid u hf
  obtain ⟨h3, h4⟩ := deleteLayer_missing db lid hf
  exact ⟨h1, h2, h3, h4⟩

/-! ## C6: the annotation mutation guard -/

/-- C6 counterexample: the claim says updating an annotation is rejected and
the annotation left unmodified whenever its owning layer is not editable. On
the concrete store whose only layer is read-only, updating the annotation on
it succeeds and changes the stored content: `AnnotationService.update` never
looks at the owning layer. -/
theorem c6_counterexample_update_ignores_guard :
    roLayer.is_editable = false ∧ annOld.layer_id = roLayer.id ∧
    (updateAnno annDB6 1 annUpd6).2 = some { annOld with content := "new", updated_at := 5 } ∧
    (updateAnno annDB6 1 annUpd6).1.annos ≠ annDB6.annos := by
  refine ⟨by decide, by decide, by decide, by decide⟩

theorem createAnno_error_iff (adb : AnnoDB) (a : Anno) :
    (∃ e, (createAnno adb a).2 = .error e) ↔
      (adb.layers.find? (fun l => l.id == a.layer_id) = none ∨
        ∃ l, adb.layers.find? (fun l => l.id == a.layer_id) = some l ∧ l.is_editable = false) := by
  cases hf : adb.layers.find? (fun l => l.id == a.layer_id) with
  | none => simp [createAnno, hf]
  | some l =>
    by_cases he : l.is_editable
    · simp [createAnno, hf, he]
    · simp [createAnno, hf, he]

theorem createAnno_error_frame (adb : AnnoDB) (a : Anno)
    (he : ∃ e, (createAnno adb a).2 = .error e) :
    (createAnno adb a).1 = adb := by
  cases hf : adb.layers.find? (fun l => l.id == a.layer_id) with
  | none => simp [createAnno, hf]
  | some l =>
    by_cases hed : l.is_editable
    · rcases he with ⟨e, he⟩
      simp [createAnno, hf, hed] at he
    · simp [createAnno, hf, hed]

/-- C6 amended: creating an annotation is rejected with an error — and
nothing is inserted — exactly when the target layer does not exist or its
editable flag is false; updating an annotation, however, performs no
editability check: its outcome does not depend on the layers table at all
(replacing the layers leaves both the updated rows and the returned value
unchanged). -/
theorem c6_amended_create_guarded_update_unguarded :
    (∀ (adb : AnnoDB) (a : Anno),
      ((∃ e, (createAnno adb a).2 = .error e) ↔
        (adb.layers.find? (fun l => l.id == a.layer_id) = none ∨
          ∃ l, adb.layers.find? (fun l => l.id == a.layer_id) = some l ∧ l.is_editable = false)) ∧
      ((∃ e, (createAnno adb a).2 = .error e) → (createAnno adb a).1 = adb)) ∧
    (∀ (adb : AnnoDB) (aid : Nat) (u : AnnoUpdates) (L : List Layer),
      (updateAnno { adb with layers := L } aid u).1.annos = (updateAnno adb aid u).1.annos ∧
      (updateAnno { adb with layers := L } aid u).2 = (updateAnno adb aid u).2) := by
  refine ⟨fun adb a => ⟨createAnno_error_iff adb a, createAnno_error_frame adb a⟩,
    fun adb aid u L => ⟨rfl, rfl⟩⟩

/-! ## C2: the boundary creation route -/

/-- C2: refuted on the code (code bug) at the no-parent-boundary input. The
claim says validation trivially passes when the parent has no boundary; on
the concrete store where suburb 2's parent (master 1) has no boundary, the
route instead fails with the `RuntimeError` text of the bare `raise` in
`BoundaryService.read` and creates nothing. The remaining conjuncts document
the behavior the claim gets right: with the parent's square boundary stored,
a nested candidate is accepted and persisted, and a candidate with one
vertex outside is rejected with the kind-naming message and no row
created. -/
theorem createBoundaryRoute_found (areas : List AreaRec) (bdb : BdyDB) (maid : Nat)
    (coords : List Coord) (ma : AreaRec) (pid : Nat) (pb : BRec)
    (hma : areas.find? (fun r => r.id == maid) = some ma)
    (hpid : ma.parent_id = some pid) (hz : ¬pid = 0)
    (hpb : boundaryReadByArea bdb pid = .ok pb) :
    createBoundaryRoute areas bdb maid coords =
      if isWithinBoundary coords pb.coordinates then createBdy bdb maid coords
      else
        (bdb, .error (areaKindName ma.area_type ++ " boundary must be completely within the "
          ++ parentKindName ma.area_type ++ " boundary")) := by
  have hz2 : (pid == 0) = false := beq_eq_false_iff_ne.mpr hz
  simp only [createBoundaryRoute, hma, hpid, hz2, hpb, Bool.false_eq_true, if_false]

theorem c2_boundary_route_behavior :
    createBoundaryRoute areasC2 bdbEmpty 2 triCoords =
      (bdbEmpty, .error "No active exception to re-raise") ∧
    createBoundaryRoute areasC2 bdbSquare 2 goodCoords =
      (⟨[⟨1, 1, sqBoundary⟩, ⟨2, 2, goodCoords⟩], 3⟩, .ok ⟨2, 2, goodCoords⟩) ∧
    createBoundaryRoute areasC2 bdbSquare 2 badCoords =
      (bdbSquare, .error "Suburb boundary must be completely within the master map boundary") := by
  have hgood : isWithinBoundary goodCoords sqBoundary = true := by
    norm_num [isWithinBoundary, goodCoords, pointInPolygon, prevVerts, sqBoundary, pipStep]
  have hbad : isWithinBoundary badCoords sqBoundary = false := by
    norm_num [isWithinBoundary, badCoords, pointInPolygon, prevVerts, sqBoundary, pipStep]
  have hstep := createBoundaryRoute_found areasC2 bdbSquare 2
  refine ⟨by decide, ?_, ?_⟩
  · rw [hstep goodCoords ⟨2, some 1, "suburb"⟩ 1 ⟨1, 1, sqBoundary⟩ (by decide) rfl
      (by decide) (by decide)]
    rw [show (⟨1, 1, sqBoundary⟩ : BRec).coordinates = sqBoundary from rfl, hgood]
    decide
  · rw [hstep badCoords ⟨2, some 1, "suburb"⟩ 1 ⟨1, 1, sqBoundary⟩ (by decide) rfl
      (by decide) (by decide)]
    rw [show (⟨1, 1, sqBoundary⟩ : BRec).coordinates = sqBoundary from rfl, hbad]
    decide

/-! ## C8: which coordinate governs the crossing test -/

/-- C8 counterexample: the claim says an edge toggles the crossing counter
exactly when the point's latitude lies strictly between the edge's two
latitudes and the longitude intercept exceeds the point's longitude. For the
edge from previous vertex `(0, 10)` to current vertex `(0, 0)` and the point
`(-1, 5)` (`[lat, lon]`), the code's `pipStep` toggles (its `(yi > y) !=
(yj > y)` test compares the second coordinates, the longitudes), while the
claim's latitude-governed rule does not fire: both vertex latitudes are `0`,
which does not strictly straddle `-1`. -/
theorem c8_counterexample_axis_swap :
    pipStep (-1) 5 false ((0, 0), (0, 10)) = true ∧
    latGovernedEdgeRule (-1) 5 ((0, 0), (0, 10)) = false := by
  constructor
  · norm_num [pipStep]
  · norm_num [latGovernedEdgeRule]

/-- C8 amended: for `[lat, lon]` input it is the second coordinate (the
longitude) that governs the between-test — in the half-open sense `min lon_i
lon_j ≤ lon < max lon_i lon_j`, which is what `(yi > y) != (yj > y)`
computes — and the latitude intercept of the edge at that longitude is
compared against the point's latitude: every toggle of the crossing counter
happens exactly under that condition. -/
theorem c8_amended_edge_rule :
    ∀ (x y xi yi xj yj : ℚ) (inside : Bool),
      pipStep x y inside ((xi, yi), (xj, yj)) =
        Bool.xor
          ((decide (min yi yj ≤ y) && decide (y < max yi yj)) &&
            decide (x < (xj - xi) * (y - yi) / (yj - yi) + xi))
          inside := by
  intro x y xi yi xj yj b
  have hguard : (decide (yi > y) != decide (yj > y)) =
      (decide (min yi yj ≤ y) && decide (y < max yi yj)) := by
    rcases le_total yi yj with h | h
    · rw [min_eq_left h, max_eq_right h]
      by_cases h1 : yi > y <;> by_cases h2 : yj > y
      · simp [h1, h2, not_le.mpr h1]
      · exact absurd (lt_of_lt_of_le h1 h) h2
      · simp [h1, h2, not_lt.mp h1, le_of_not_lt h1]
      · simp [h1, h2]
    · rw [min_eq_right h, max_eq_left h]
      by_cases h1 : yi > y <;> by_cases h2 : yj > y
      · simp [h1, h2, not_le.mpr h2]
      · simp [h1, h2, le_of_not_lt h2]
      · exact absurd (lt_of_lt_of_le h2 h) h1
      · simp [h1, h2]
  show (if (decide (yi > y) != decide (yj > y)) &&
      decide (x < (xj - xi) * (y - yi) / (yj - yi) + xi) then !b else b) = _
  rw [hguard]
  cases hc : (decide (min yi yj ≤ y) && decide (y < max yi yj)) &&
      decide (x < (xj - xi) * (y - yi) / (yj - yi) + xi) <;> simp [hc]

/-! ## C9: the closed lon/lat ring -/

theorem toClosed_cons (c : Coord) (cs : List Coord) :
    toClosedLonLatRing (c :: cs) =
      if (swapLL c :: cs.map swapLL).getLast (List.cons_ne_nil _ _) ≠ swapLL c
      then (swapLL c :: cs.map swapLL) ++ [swapLL c]
      else swapLL c :: cs.map swapLL := rfl

/-- C9: on a non-empty coordinate list, the ring conversion reorders each
`[lat, lon]` pair to `[lon, lat]` and appends a copy of the reordered first
point exactly when the reordered last point differs from it, so the result
always begins and ends with the same point; on `[[1,2],[3,4],[5,6]]` it
produces `[[2,1],[4,3],[6,5],[2,1]]`. -/
theorem c9_to_closed_lonlat_ring :
    (∀ (c : Coord) (cs : List Coord) (z : Coord),
      ((c :: cs).map swapLL).getLast? = some z →
        (z = swapLL c → toClosedLonLatRing (c :: cs) = (c :: cs).map swapLL) ∧
        (z ≠ swapLL c →
          toClosedLonLatRing (c :: cs) = (c :: cs).map swapLL ++ [swapLL c])) ∧
    (∀ (c : Coord) (cs : List Coord),
      (toClosedLonLatRing (c :: cs)).head? = some (swapLL c) ∧
      (toClosedLonLatRing (c :: cs)).getLast? = some (swapLL c)) ∧
    toClosedLonLatRing [(1, 2), (3, 4), (5, 6)] = [(2, 1), (4, 3), (6, 5), (2, 1)] := by
  refine ⟨?_, ?_, by decide⟩
  · intro c cs z hz
    rw [List.map_cons] at hz
    have hne : (swapLL c :: cs.map swapLL) ≠ [] := List.cons_ne_nil _ _
    rw [List.getLast?_eq_getLast_of_ne_nil hne] at hz
    have hzl : (swapLL c :: cs.map swapLL).getLast hne = z := Option.some.inj hz
    constructor
    · intro heq
      rw [toClosed_cons, if_neg, List.map_cons]
      simp [hzl, heq]
    · intro hneq
      rw [toClosed_cons, if_pos, List.map_cons]
      simp [hzl, hneq]
  · intro c cs
    rw [toClosed_cons]
    by_cases hif : (swapLL c :: cs.map swapLL).getLast (List.cons_ne_nil _ _) ≠ swapLL c
    · rw [if_pos hif]
      exact ⟨rfl, List.getLast?_concat _⟩
    · rw [if_neg hif]
      push_neg at hif
      refine ⟨rfl, ?_⟩
      rw [List.getLast?_eq_getLast_of_ne_nil (List.cons_ne_nil _ _), hif]

/-- C9 witness: the general clauses at `[[1,2],[3,4],[5,6]]`, whose
reordered last point `(6,5)` differs from the reordered first point
`(2,1)`. -/
theorem c9_ring_witness :
    toClosedLonLatRing [((1 : ℚ), (2 : ℚ)), (3, 4), (5, 6)] =
      [((1 : ℚ), (2 : ℚ)), (3, 4), (5, 6)].map Maps.swapLL ++ [Maps.swapLL (1, 2)] ∧
    (toClosedLonLatRing [((1 : ℚ), (2 : ℚ)), (3, 4), (5, 6)]).head? = some (Maps.swapLL (1, 2)) := by
  constructor
  · exact ((c9_to_closed_lonlat_ring.1 (1, 2) [(3, 4), (5, 6)] (6, 5) (by decide)).2 (by decide))
  · exact (c9_to_closed_lonlat_ring.2.1 (1, 2) [(3, 4), (5, 6)]).1

/-! ## C10: totality of the ray cast -/

theorem pipStepChecked_eq (x y : ℚ) (b : Bool) (e : Coord × Coord) :
    pipStepChecked x y b e = some (pipStep x y b e) := by
  by_cases hg : (decide (e.1.2 > y) != decide (e.2.2 > y)) = true
  · have hne : e.2.2 - e.1.2 ≠ 0 := by
      intro h0
      have hyy : e.1.2 = e.2.2 := by
        have := sub_eq_zero.mp h0
        linarith
      rw [hyy, bne_self_eq_false] at hg
      exact Bool.false_ne_true hg
    simp [pipStepChecked, pipStep, hg, hne]
  · rw [Bool.not_eq_true] at hg
    simp [pipStepChecked, pipStep, hg]

/-- C10: `PointInPolygon` never divides by zero: the short-circuited guard
`(yi > y) != (yj > y)` implies the divisor `yj - yi` is nonzero, so the
zero-divisor-checking variant agrees with the code on every input (it never
reaches its `none` branch). -/
theorem c10_no_division_by_zero :
    ∀ (p : Coord) (polygon : List Coord),
      pointInPolygonChecked p polygon = some (pointInPolygon p polygon) := by
  intro p polygon
  have aux : ∀ (L : List (Coord × Coord)) (b : Bool),
      L.foldlM (fun i e => pipStepChecked p.1 p.2 i e) b =
        some (L.foldl (fun i e => pipStep p.1 p.2 i e) b) := by
    intro L
    induction L with
    | nil => intro b; rfl
    | cons e es ih =>
      intro b
      rw [List.foldlM_cons, pipStepChecked_eq]
      simpa using ih (pipStep p.1 p.2 b e)
  exact aux _ false

/-! ## C7: correctness of the ray cast

The crossing fold is turned into a parity (`bxor`) of per-edge crossing
flags. Outside the bounding box no edge can fire (above/below: the
between-test fails; beyond the maximal first coordinate: every intercept of
a firing edge lies between the edge's endpoints, hence short of the point;
before the minimal first coordinate: every firing edge's intercept lies past
the point, so the parity equals the parity of the between-tests, which is
even because each vertex enters the cyclic edge list exactly twice).
-/

theorem pipStep_eq_xor (x y : ℚ) (b : Bool) (e : Coord × Coord) :
    pipStep x y b e = Bool.xor (edgeCross x y e) b := by
  show (if edgeCross x y e then !b else b) = Bool.xor (edgeCross x y e) b
  cases edgeCross x y e <;> cases b <;> rfl

theorem bxor_cons (a : Bool) (l : List Bool) : bxor (a :: l) = Bool.xor a (bxor l) := rfl

theorem foldl_pipStep_eq (x y : ℚ) :
    ∀ (L : List (Coord × Coord)) (b : Bool),
      L.foldl (fun i e => pipStep x y i e) b = Bool.xor (bxor (L.map (edgeCross x y))) b := by
  intro L
  induction L with
  | nil => intro b; cases b <;> rfl
  | cons e es ih =>
    intro b
    rw [List.foldl_cons, ih, List.map_cons, bxor_cons, pipStep_eq_xor]
    cases edgeCross x y e <;> cases bxor (es.map (edgeCross x y)) <;> cases b <;> rfl

theorem pointInPolygon_eq_bxor (p : Coord) (polygon : List Coord) :
    pointInPolygon p polygon =
      bxor ((polygon.zip (prevVerts polygon)).map (edgeCross p.1 p.2)) := by
  rw [pointInPolygon, foldl_pipStep_eq]
  cases bxor ((polygon.zip (prevVerts polygon)).map (edgeCross p.1 p.2)) <;> rfl

theorem bxor_all_false : ∀ (l : List Bool), (∀ b ∈ l, b = false) → bxor l = false := by
  intro l
  induction l with
  | nil => intro _; rfl
  | cons a as ih =>
    intro h
    rw [bxor_cons, h a (List.mem_cons_self a as),
      ih (fun b hb => h b (List.mem_cons_of_mem a hb))]
    rfl

theorem bxor_perm : ∀ {l₁ l₂ : List Bool}, l₁.Perm l₂ → bxor l₁ = bxor l₂ := by
  intro l₁ l₂ h
  induction h with
  | nil => rfl
  | cons a _ ih => rw [bxor_cons, bxor_cons, ih]
  | swap a b l =>
    rw [bxor_cons, bxor_cons, bxor_cons, bxor_cons]
    cases a <;> cases b <;> cases bxor l <;> rfl
  | trans _ _ ih1 ih2 => rw [ih1, ih2]

theorem bxor_zip_xor (f g : Coord → Bool) :
    ∀ (l₁ l₂ : List Coord), l₁.length = l₂.length →
      bxor ((l₁.zip l₂).map (fun e => Bool.xor (f e.1) (g e.2))) =
        Bool.xor (bxor (l₁.map f)) (bxor (l₂.map g)) := by
  intro l₁
  induction l₁ with
  | nil =>
    intro l₂ h
    rw [List.eq_nil_of_length_eq_zero h.symm]
    rfl
  | cons a as ih =>
    intro l₂ h
    cases l₂ with
    | nil => simp at h
    | cons b bs =>
      rw [List.zip_cons_cons, List.map_cons, bxor_cons, List.map_cons, List.map_cons,
        bxor_cons, bxor_cons, ih bs (by simpa using h)]
      cases f a <;> cases g b <;> cases bxor (as.map f) <;> cases bxor (bs.map g) <;> rfl

theorem length_prevVerts (l : List Coord) : (prevVerts l).length = l.length := by
  unfold prevVerts
  cases h : l.getLast? with
  | none => rw [List.getLast?_eq_none_iff.mp h]
  | some t =>
    have hne : l ≠ [] := by
      intro he
      rw [he] at h
      simp at h
    simp [List.length_dropLast, Nat.sub_add_cancel (List.length_pos.mpr hne)]

theorem prevVerts_perm (l : List Coord) : (prevVerts l).Perm l := by
  unfold prevVerts
  cases h : l.getLast? with
  | none => rw [List.getLast?_eq_none_iff.mp h]
  | some t =>
    have hne : l ≠ [] := by
      intro he
      rw [he] at h
      simp at h
    have ht : t = l.getLast hne := by
      rw [List.getLast?_eq_getLast_of_ne_nil hne] at h
      exact (Option.some.inj h).symm
    refine ((List.perm_append_singleton t l.dropLast).symm).trans ?_
    rw [ht, List.dropLast_append_getLast hne]

theorem mem_prevVerts {v : Coord} {l : List Coord} (h : v ∈ prevVerts l) : v ∈ l :=
  (prevVerts_perm l).subset h

theorem edgeGuard_true {y : ℚ} {e : Coord × Coord} (hg : edgeGuard y e = true) :
    (y < e.1.2 ∧ e.2.2 ≤ y) ∨ (e.1.2 ≤ y ∧ y < e.2.2) := by
  unfold edgeGuard at hg
  by_cases h1 : e.1.2 > y <;> by_cases h2 : e.2.2 > y
  · simp [h1, h2] at hg
  · exact Or.inl ⟨h1, not_lt.mp h2⟩
  · exact Or.inr ⟨not_lt.mp h1, h2⟩
  · simp [h1, h2] at hg

theorem icpt_bounds {y : ℚ} {e : Coord × Coord} (hg : edgeGuard y e = true) :
    min e.1.1 e.2.1 ≤ (e.2.1 - e.1.1) * (y - e.1.2) / (e.2.2 - e.1.2) + e.1.1 ∧
    (e.2.1 - e.1.1) * (y - e.1.2) / (e.2.2 - e.1.2) + e.1.1 ≤ max e.1.1 e.2.1 := by
  obtain ⟨⟨xi, yi⟩, ⟨xj, yj⟩⟩ := e
  simp only at *
  have hs : 0 ≤ (y - yi) / (yj - yi) ∧ (y - yi) / (yj - yi) ≤ 1 := by
    rcases edgeGuard_true hg with ⟨h1, h2⟩ | ⟨h1, h2⟩
    · simp only at h1 h2
      have hd : yj - yi < 0 := by linarith
      constructor
      · have h0 : y - yi ≤ 0 * (yj - yi) := by rw [zero_mul]; linarith
        exact (le_div_iff_of_neg hd).mpr h0
      · have h0 : 1 * (yj - yi) ≤ y - yi := by rw [one_mul]; linarith
        exact (div_le_iff_of_neg hd).mpr h0
    · simp only at h1 h2
      have hd : (0 : ℚ) < yj - yi := by linarith
      constructor
      · exact div_nonneg (by linarith) (le_of_lt hd)
      · rw [div_le_one hd]
        linarith
  obtain ⟨hs0, hs1⟩ := hs
  rw [mul_div_assoc]
  constructor
  · rcases le_total xi xj with hx | hx
    · rw [min_eq_left hx]
      nlinarith [mul_nonneg (by linarith : (0 : ℚ) ≤ xj - xi) hs0]
    · rw [min_eq_right hx]
      nlinarith [mul_le_mul_of_nonpos_left hs1 (by linarith : xj - xi ≤ 0)]
  · rcases le_total xi xj with hx | hx
    · rw [max_eq_right hx]
      nlinarith [mul_le_mul_of_nonneg_left hs1 (by linarith : (0 : ℚ) ≤ xj - xi)]
    · rw [max_eq_left hx]
      nlinarith [mul_nonneg (by linarith : (0 : ℚ) ≤ xi - xj) hs0]

theorem edgeCross_false_of_guard_false {x y : ℚ} {e : Coord × Coord}
    (hg : edgeGuard y e = false) : edgeCross x y e = false := by
  simp [edgeCross, hg]

theorem edgeGuard_false_below {y : ℚ} {e : Coord × Coord}
    (h1 : y < e.1.2) (h2 : y < e.2.2) : edgeGuard y e = false := by
  simp [edgeGuard, h1, h2]

theorem edgeGuard_false_above {y : ℚ} {e : Coord × Coord}
    (h1 : e.1.2 < y) (h2 : e.2.2 < y) : edgeGuard y e = false := by
  simp [edgeGuard, not_lt.mpr (le_of_lt h1), not_lt.mpr (le_of_lt h2)]

theorem edgeCross_false_of_right {p : Coord} {e : Coord × Coord}
    (h1 : e.1.1 < p.1) (h2 : e.2.1 < p.1) : edgeCross p.1 p.2 e = false := by
  by_cases hg : edgeGuard p.2 e = true
  · have hb := (icpt_bounds hg).2
    have hmax : max e.1.1 e.2.1 < p.1 := max_lt h1 h2
    have hcmp : ¬(p.1 < (e.2.1 - e.1.1) * (p.2 - e.1.2) / (e.2.2 - e.1.2) + e.1.1) := by
      linarith
    simp [edgeCross, hg, hcmp]
  · rw [Bool.not_eq_true] at hg
    simp [edgeCross, hg]

theorem edgeCross_eq_guard_of_left {p : Coord} {e : Coord × Coord}
    (h1 : p.1 < e.1.1) (h2 : p.1 < e.2.1) : edgeCross p.1 p.2 e = edgeGuard p.2 e := by
  by_cases hg : edgeGuard p.2 e = true
  · have hb := (icpt_bounds hg).1
    have hmin : p.1 < min e.1.1 e.2.1 := lt_min h1 h2
    have hcmp : p.1 < (e.2.1 - e.1.1) * (p.2 - e.1.2) / (e.2.2 - e.1.2) + e.1.1 := by
      linarith
    simp [edgeCross, hg, hcmp]
  · rw [Bool.not_eq_true] at hg
    simp [edgeCross, hg]

theorem pip_false_of_outside (polygon : List Coord) (p : Coord)
    (hout : outsideBBox p polygon) : pointInPolygon p polygon = false := by
  rw [pointInPolygon_eq_bxor]
  rcases hout with hL | hR | hB | hA
  · have hmapeq : (polygon.zip (prevVerts polygon)).map (edgeCross p.1 p.2) =
        (polygon.zip (prevVerts polygon)).map (edgeGuard p.2) := by
      refine List.map_congr_left fun e he => ?_
      rcases e with ⟨a, c⟩
      obtain ⟨ha, hc⟩ := List.of_mem_zip he
      exact edgeCross_eq_guard_of_left (hL a ha) (hL c (mem_prevVerts hc))
    have hmapeq2 : (polygon.zip (prevVerts polygon)).map (edgeGuard p.2) =
        (polygon.zip (prevVerts polygon)).map
          (fun e => Bool.xor (decide (e.1.2 > p.2)) (decide (e.2.2 > p.2))) := by
      refine List.map_congr_left fun e _ => ?_
      show (decide (e.1.2 > p.2) != decide (e.2.2 > p.2)) = _
      cases decide (e.1.2 > p.2) <;> cases decide (e.2.2 > p.2) <;> rfl
    rw [hmapeq, hmapeq2,
      bxor_zip_xor (fun v => decide (v.2 > p.2)) (fun v => decide (v.2 > p.2)) polygon
        (prevVerts polygon) (length_prevVerts polygon).symm,
      bxor_perm ((prevVerts_perm polygon).map (fun v => decide (v.2 > p.2)))]
    exact Bool.xor_self _
  · refine bxor_all_false _ (fun b hb => ?_)
    obtain ⟨e, he, rfl⟩ := List.mem_map.mp hb
    rcases e with ⟨a, c⟩
    obtain ⟨ha, hc⟩ := List.of_mem_zip he
    exact edgeCross_false_of_right (hR a ha) (hR c (mem_prevVerts hc))
  · refine bxor_all_false _ (fun b hb => ?_)
    obtain ⟨e, he, rfl⟩ := List.mem_map.mp hb
    rcases e with ⟨a, c⟩
    obtain ⟨ha, hc⟩ := List.of_mem_zip he
    exact edgeCross_false_of_guard_false
      (edgeGuard_false_below (hB a ha) (hB c (mem_prevVerts hc)))
  · refine bxor_all_false _ (fun b hb => ?_)
    obtain ⟨e, he, rfl⟩ := List.mem_map.mp hb
    rcases e with ⟨a, c⟩
    obtain ⟨ha, hc⟩ := List.of_mem_zip he
    exact edgeCross_false_of_guard_false
      (edgeGuard_false_above (hA a ha) (hA c (mem_prevVerts hc)))

theorem pip_square_interior : ∀ x y : ℚ, 0 < x → x < 10 → 0 < y → y < 10 →
    pointInPolygon (x, y) sqBoundary = true := by
  intro x y hx0 hx10 hy0 hy10
  have d1 : ¬((0 : ℚ) > y) := by linarith
  have d2 : (10 : ℚ) > y := by linarith
  have d3 : ¬(x < (0 : ℚ)) := by linarith
  have d4 : x < (10 : ℚ) := by linarith
  norm_num [pointInPolygon, prevVerts, sqBoundary, pipStep, d1, d2, d3, d4]

/-- C7: the ray cast returns `false` for every point outside the bounding
box of any polygon with at least three vertices; for the spec's square
boundary `[[0,0],[0,10],[10,10],[10,0]]` it returns `true` on every point of
the open interior; and in particular `(5,5)` is classified inside and
`(20,20)` outside. -/
theorem c7_point_in_polygon :
    (∀ (polygon : List Coord) (p : Coord), 3 ≤ polygon.length → outsideBBox p polygon →
      pointInPolygon p polygon = false) ∧
    (∀ x y : ℚ, 0 < x → x < 10 → 0 < y → y < 10 →
      pointInPolygon (x, y) sqBoundary = true) ∧
    pointInPolygon (5, 5) sqBoundary = true ∧ pointInPolygon (20, 20) sqBoundary = false := by
  refine ⟨fun polygon p _ hout => pip_false_of_outside polygon p hout,
    pip_square_interior, ?_, ?_⟩
  · norm_num [pointInPolygon, prevVerts, sqBoundary, pipStep]
  · norm_num [pointInPolygon, prevVerts, sqBoundary, pipStep]

/-- C7 witness: the general clauses of `c7_point_in_polygon` instantiated at
the square with the outside point `(-3, 4)` and the interior point
`(7, 3)`. -/
theorem c7_point_in_polygon_witness :
    3 ≤ sqBoundary.length ∧ outsideBBox ((-3 : ℚ), 4) sqBoundary ∧
    pointInPolygon ((-3 : ℚ), 4) sqBoundary = false ∧
    pointInPolygon ((7 : ℚ), 3) sqBoundary = true := by
  have hout : outsideBBox ((-3 : ℚ), 4) sqBoundary := by
    refine Or.inl ?_
    intro v hv
    fin_cases hv <;> norm_num
  exact ⟨by norm_num [sqBoundary], hout,
    c7_point_in_polygon.1 sqBoundary ((-3 : ℚ), 4) (by norm_num [sqBoundary]) hout,
    c7_point_in_polygon.2.1 7 3 (by norm_num) (by norm_num) (by norm_num) (by norm_num)⟩

end Maps
